import Mathlib

/-!
Verification of the pi-mono-py agent runtime against its specification.

The Python sources are shallowly embedded: pure functions become Lean
functions, the stateful event stream becomes explicit state passing, and
the asynchronous loops become recursive functions parameterised by the
outcomes of their effectful steps (the tool executions, the steering
polls, the jitter draws).  Machine integers are Nat; Python floats in the
cost calculation are modelled as rationals.
-/

namespace PiMono

/-! ## Stop-reason mapping (pi_ai/providers/anthropic.py, openai.py)

Python `mapping.get(reason, "stop")` over a literal dict becomes a chain
of equality tests with the same default. -/

/-- `_map_anthropic_stop_reason` from pi_ai/providers/anthropic.py. -/
def map_anthropic_stop_reason (reason : String) : String :=
  if reason = "end_turn" then "stop"
  else if reason = "max_tokens" then "length"
  else if reason = "stop_sequence" then "toolUse"
  else "stop"

/-- `_map_finish_reason` from pi_ai/providers/openai.py (the same table is
used by openai_enhanced.py, mistral.py and zhipu.py). -/
def map_finish_reason (reason : String) : String :=
  if reason = "stop" then "stop"
  else if reason = "length" then "length"
  else if reason = "tool_calls" then "toolUse"
  else if reason = "content_filter" then "stop"
  else "stop"

/-! ## Tool-call id normalization (pi_ai/providers/openai.py) -/

/-- `normalize_mistral_tool_id` from pi_ai/providers/openai.py:
keep the alphanumeric characters, then pad with a prefix of
"ABCDEFGHI" below length 9 and truncate above it.  Python's
`str.isalnum` is modelled by `Char.isAlphanum` (the ASCII case). -/
def normalize_mistral_tool_id (toolId : String) : String :=
  let normalized := String.mk (toolId.data.filter Char.isAlphanum)
  if normalized.length < 9 then
    normalized ++ String.mk ("ABCDEFGHI".data.take (9 - normalized.length))
  else if normalized.length > 9 then
    String.mk (normalized.data.take 9)
  else
    normalized

/-! ## Cost accounting (pi_ai/models.py) -/

/-- Per-million prices of a model (pi_ai/types.py `ModelCost`). -/
structure ModelCost where
  input : ℚ
  output : ℚ
  cache_read : ℚ
  cache_write : ℚ
deriving DecidableEq, Repr

/-- Token counts of a response (pi_ai/types.py `Usage`, the integer part). -/
structure Usage where
  input : ℕ
  output : ℕ
  cache_read : ℕ
  cache_write : ℕ
  total_tokens : ℕ
deriving DecidableEq, Repr

/-- Monetary cost record (pi_ai/types.py `UsageCost`). -/
structure UsageCost where
  input : ℚ
  output : ℚ
  cache_read : ℚ
  cache_write : ℚ
  total : ℚ
deriving DecidableEq, Repr

/-- The model descriptor fields used by the cost calculation
(pi_ai/types.py `Model`, restricted to what `calculate_cost` reads). -/
structure Model where
  id : String
  provider : String
  cost : ModelCost
deriving DecidableEq, Repr

/-- `calculate_cost` from pi_ai/models.py. -/
def calculate_cost (model : Model) (usage : Usage) : UsageCost :=
  { input := (model.cost.input / 1000000) * usage.input
    output := (model.cost.output / 1000000) * usage.output
    cache_read := (model.cost.cache_read / 1000000) * usage.cache_read
    cache_write := (model.cost.cache_write / 1000000) * usage.cache_write
    total :=
      (model.cost.input / 1000000) * usage.input
        + (model.cost.output / 1000000) * usage.output
        + (model.cost.cache_read / 1000000) * usage.cache_read
        + (model.cost.cache_write / 1000000) * usage.cache_write }

/-! ## Retry backoff (pi_agent/loop.py) -/

/-- The delay computed by `_exponential_backoff` in pi_agent/loop.py:
`base_delay_ms * (2 ** attempt) + random.randint(0, 1000)`; the jitter
draw is passed in explicitly. -/
def exponential_backoff_delay (attempt base_delay_ms jitter : ℕ) : ℕ :=
  base_delay_ms * 2 ^ attempt + jitter

/-- The backoff delay as the specification words it: the exponential
formula capped at `max_retry_delay_ms`.  Stated only to be compared with
`exponential_backoff_delay`, which the code actually computes. -/
def spec_capped_backoff_delay (attempt base_delay_ms jitter cap : ℕ) : ℕ :=
  min (base_delay_ms * 2 ^ attempt + jitter) cap

/-- Python `"rate" in s`: substring containment via `splitOn`. -/
def contains_sub (hay needle : String) : Bool :=
  (hay.splitOn needle).length > 1

/-- The rate-limit classifier of `_stream_assistant_response`
(pi_agent/loop.py lines 274-275): the lowered exception text contains
"rate", "limit" or "429". -/
def is_rate_limit (error_str : String) : Bool :=
  contains_sub error_str.toLower "rate"
    || contains_sub error_str.toLower "limit"
    || contains_sub error_str.toLower "429"

/-- Outcome of one attempt of the streaming call inside the retry loop of
`_stream_assistant_response`: the call returns a message, raises an
exception with a text, or hits the LLM timeout. -/
inductive AttemptOutcome where
  | ok
  | err (msg : String)
  | timedOut
deriving DecidableEq, Repr

/-- How the retry loop of `_stream_assistant_response` exits. -/
inductive LoopExit where
  | success
  | raised (msg : String)
  | exhausted
deriving DecidableEq, Repr

/-- Exit of the retry loop together with the list of backoff delays it
waited, in order. -/
structure RetryRun where
  exit : LoopExit
  delays : List ℕ
deriving DecidableEq, Repr

/-- The retry loop of `_stream_assistant_response` (pi_agent/loop.py lines
252-285), as a function of the per-attempt outcomes and the per-attempt
jitter draws.  `fuel` counts the iterations left of
`for attempt in range(max_retries + 1)`; it starts at `max_retries + 1`
with `attempt = 0`. -/
def retry_go (retry_on_rate_limit : Bool) (base_delay_ms : ℕ) (jitter : ℕ → ℕ)
    (outcome : ℕ → AttemptOutcome) (max_retries : ℕ) :
    ℕ → ℕ → RetryRun
  | _, 0 => ⟨LoopExit.exhausted, []⟩
  | attempt, fuel + 1 =>
    match outcome attempt with
    | AttemptOutcome.ok => ⟨LoopExit.success, []⟩
    | AttemptOutcome.timedOut =>
      if attempt < max_retries then
        let r := retry_go retry_on_rate_limit base_delay_ms jitter outcome max_retries
          (attempt + 1) fuel
        ⟨r.exit, exponential_backoff_delay attempt base_delay_ms (jitter attempt) :: r.delays⟩
      else
        ⟨LoopExit.exhausted, []⟩
    | AttemptOutcome.err msg =>
      if is_rate_limit msg && retry_on_rate_limit && attempt < max_retries then
        let r := retry_go retry_on_rate_limit base_delay_ms jitter outcome max_retries
          (attempt + 1) fuel
        ⟨r.exit, exponential_backoff_delay attempt base_delay_ms (jitter attempt) :: r.delays⟩
      else
        ⟨LoopExit.raised msg, []⟩

/-- The whole retry loop: attempts `0 .. max_retries`. -/
def stream_retries (retry_on_rate_limit : Bool) (base_delay_ms : ℕ) (jitter : ℕ → ℕ)
    (outcome : ℕ → AttemptOutcome) (max_retries : ℕ) : RetryRun :=
  retry_go retry_on_rate_limit base_delay_ms jitter outcome max_retries 0 (max_retries + 1)

/-! ## EventStream (pi_ai/event_stream.py)

The queue holds events and the `_SENTINEL` marker; an entry `none` is the
sentinel.  The result future is `none` while unresolved.  Time-free state
passing: `push` and `end_` map a state to a state, mirroring the method
bodies line by line. -/

/-- The mutable state of `EventStream` (pi_ai/event_stream.py), together
with its two configuration callables. -/
structure EventStream (T R : Type) where
  is_complete : T → Bool
  extract_result : T → R
  queue : List (Option T)
  done : Bool
  final_result : Option R

/-- `EventStream.push`: ignored when done; a completing event marks done,
resolves the result future if unresolved, and enqueues the event then the
sentinel; any other event is enqueued. -/
def EventStream.push {T R : Type} (s : EventStream T R) (event : T) : EventStream T R :=
  if s.done then s
  else if s.is_complete event then
    { s with
      done := true
      final_result :=
        if s.final_result.isNone then some (s.extract_result event) else s.final_result
      queue := s.queue ++ [some event, none] }
  else
    { s with queue := s.queue ++ [some event] }

/-- `EventStream.end`: marks done, resolves the result future when a
result is supplied and the future is unresolved, and enqueues the
sentinel. -/
def EventStream.end_ {T R : Type} (s : EventStream T R) (result : Option R) : EventStream T R :=
  { s with
    done := true
    final_result :=
      match result with
      | some r => if s.final_result.isNone then some r else s.final_result
      | none => s.final_result
    queue := s.queue ++ [none] }

/-- One operation applied to an event stream. -/
inductive StreamOp (T R : Type) where
  | push (event : T)
  | end_ (result : Option R)

/-- Apply one operation. -/
def EventStream.step {T R : Type} (s : EventStream T R) : StreamOp T R → EventStream T R
  | StreamOp.push e => s.push e
  | StreamOp.end_ r => s.end_ r

/-- Apply a sequence of operations, first one first. -/
def EventStream.run {T R : Type} (s : EventStream T R) : List (StreamOp T R) → EventStream T R
  | [] => s
  | op :: ops => (s.step op).run ops

/-- An operation that supplies no result to a stream whose completion
predicate is `is_complete`: a push of a non-completing event, or an `end`
without a result argument. -/
def suppliesNoResult {T R : Type} (is_complete : T → Bool) : StreamOp T R → Prop
  | StreamOp.push e => is_complete e = false
  | StreamOp.end_ r => r = none

/-! ## Tool execution (pi_agent/loop.py `_execute_tool_calls`, `_skip_tool_call`)

The executor is embedded as a recursive function over the batch of tool
calls.  Effects are parameters: `execOutcome call` is how
`tool.execute(...)` (wrapped in `asyncio.wait_for` when a timeout is
configured) ends for that call — a result, a timeout, a cancellation or
an exception — and `steer k` is the list returned by the
`get_steering_messages()` poll made after the k-th completed call
(0-based).  The run happens with no cancel event set and with a steering
callback present, the situation the claims describe; the wall-clock
`timestamp` field of the Python messages is omitted. -/

/-- A content block of a tool result (only text occurs here). -/
inductive ContentBlock where
  | text (text : String)
deriving DecidableEq, Repr

/-- The `details` dict attached to a tool result by the executor:
`{}`, `{"timeout_ms": t}` or `{"cancelled": True}`. -/
inductive Details where
  | empty
  | timeoutMs (ms : ℕ)
  | cancelled
deriving DecidableEq, Repr

/-- `ToolCall` content of an assistant message (pi_ai/types.py),
restricted to the fields the executor reads. -/
structure ToolCall where
  id : String
  name : String
  arguments : String
deriving DecidableEq, Repr

/-- `AgentToolResult` (pi_agent/types.py). -/
structure AgentToolResult where
  content : List ContentBlock
  details : Details
deriving DecidableEq, Repr

/-- `ToolResultMessage` (pi_ai/types.py), without the wall-clock
timestamp. -/
structure ToolResultMessage where
  tool_call_id : String
  tool_name : String
  content : List ContentBlock
  details : Details
  is_error : Bool
deriving DecidableEq, Repr

/-- How `tool.execute(...)` (under `asyncio.wait_for` when a timeout is
configured) ends for one call.  A missing tool surfaces as
`failure "Tool ... not found"` through the generic `except Exception`
branch. -/
inductive ExecOutcome where
  | success (result : AgentToolResult)
  | timeout
  | cancelled
  | failure (msg : String)
deriving DecidableEq, Repr

/-- The tool-result message the executor records for one executed call,
following the `try/except` of `_execute_tool_calls` (pi_agent/loop.py
lines 393-456).  The timeout branch can only be reached when
`tool_timeout_ms` is set, hence `getD 0` never shows. -/
def exec_result_message (tool_timeout_ms : Option ℕ) (tool_call : ToolCall)
    (outcome : ExecOutcome) : ToolResultMessage :=
  match outcome with
  | ExecOutcome.success result =>
    { tool_call_id := tool_call.id, tool_name := tool_call.name
      content := result.content, details := result.details, is_error := false }
  | ExecOutcome.timeout =>
    { tool_call_id := tool_call.id, tool_name := tool_call.name
      content := [ContentBlock.text
        ("Tool '" ++ tool_call.name ++ "' timed out after "
          ++ toString (tool_timeout_ms.getD 0) ++ "ms")]
      details := Details.timeoutMs (tool_timeout_ms.getD 0), is_error := true }
  | ExecOutcome.cancelled =>
    { tool_call_id := tool_call.id, tool_name := tool_call.name
      content := [ContentBlock.text "Tool execution was cancelled"]
      details := Details.cancelled, is_error := true }
  | ExecOutcome.failure msg =>
    { tool_call_id := tool_call.id, tool_name := tool_call.name
      content := [ContentBlock.text msg], details := Details.empty, is_error := true }

/-- A user-level message queued through steering or follow-up; its
payload is irrelevant to the executor. -/
structure AgentMessage where
  role : String
  text : String
deriving DecidableEq, Repr

/-- `_skip_tool_call` from pi_agent/loop.py: the synthesized error result
for a call skipped because a steering message is queued. -/
def skip_tool_call (tool_call : ToolCall) : ToolResultMessage :=
  { tool_call_id := tool_call.id, tool_name := tool_call.name
    content := [ContentBlock.text "Skipped due to queued user message."]
    details := Details.empty
    is_error := true }

/-- The loop of `_execute_tool_calls` (pi_agent/loop.py lines 370-470)
from the call at position `idx` on: record the executed call's result,
poll steering, and on a non-empty poll synthesize skip results for every
remaining call and stop.  Returns the recorded results and the steering
messages returned by the interrupting poll, if any. -/
def run_tool_calls (tool_timeout_ms : Option ℕ) (execOutcome : ToolCall → ExecOutcome)
    (steer : ℕ → List AgentMessage) :
    List ToolCall → ℕ → List ToolResultMessage × Option (List AgentMessage)
  | [], _ => ([], none)
  | tool_call :: rest, idx =>
    let message := exec_result_message tool_timeout_ms tool_call (execOutcome tool_call)
    let steering := steer idx
    if steering.length > 0 then
      (message :: rest.map skip_tool_call, some steering)
    else
      let r := run_tool_calls tool_timeout_ms execOutcome steer rest (idx + 1)
      (message :: r.1, r.2)

/-- `_execute_tool_calls` on the tool calls of an assistant message. -/
def execute_tool_calls (tool_timeout_ms : Option ℕ) (execOutcome : ToolCall → ExecOutcome)
    (steer : ℕ → List AgentMessage) (tool_calls : List ToolCall) :
    List ToolResultMessage × Option (List AgentMessage) :=
  run_tool_calls tool_timeout_ms execOutcome steer tool_calls 0

/-! ## The agent facade (pi_agent/agent.py)

`prompt()` and `continue_()` are embedded as dispatch functions over a
snapshot of the agent state.  The snapshot keeps the fields those methods
read; the role of the last history message is what
`isinstance(last_msg, AssistantMessage)` tests. -/

/-- Steering / follow-up queue draining mode. -/
inductive QueueMode where
  | all
  | oneAtATime
deriving DecidableEq, Repr

/-- The role of a history message, as far as `continue_` reads it. -/
inductive Role where
  | user
  | assistant
  | toolResult
deriving DecidableEq, Repr

/-- A history message of the agent state (role only; `continue_` reads
nothing else). -/
structure HistoryMessage where
  role : Role
deriving DecidableEq, Repr

/-- The fields of `Agent` that `prompt`, `continue_` and `_run_loop`
consult before starting an activation. -/
structure AgentSnapshot where
  is_streaming : Bool
  model : Option Model
  messages : List HistoryMessage
  steering_queue : List AgentMessage
  follow_up_queue : List AgentMessage
  steering_mode : QueueMode
  follow_up_mode : QueueMode

/-- `_dequeue_steering_messages` / `_dequeue_follow_up_messages`
(pi_agent/agent.py lines 158-178): the dequeued batch and the queue left
behind. -/
def dequeue_messages (mode : QueueMode) (queue : List AgentMessage) :
    List AgentMessage × List AgentMessage :=
  match mode, queue with
  | QueueMode.oneAtATime, [] => ([], [])
  | QueueMode.oneAtATime, first :: rest => ([first], rest)
  | QueueMode.all, q => (q, [])

/-- How a call of `prompt()` or `continue_()` ends. -/
inductive AgentCallResult where
  | failAlreadyProcessing
  | failNoMessages
  | failCannotContinueFromAssistant
  | failNoModel
  | started (seed : List AgentMessage) (skip_initial_steering_poll : Bool)
      (fresh_activation : Bool)
deriving DecidableEq, Repr

/-- `Agent.continue_` (pi_agent/agent.py lines 232-256) together with the
entry checks of `_run_loop` (the model check) and of
`agent_loop_continue`: the dispatch decision.  `started seed skip fresh`
means an activation begins, seeded with `seed`, with
`skip_initial_steering_poll = skip`; `fresh = true` when it goes through
`agent_loop` (a seeded fresh activation), `false` when it continues the
existing history through `agent_loop_continue`. -/
def continue_run (s : AgentSnapshot) : AgentCallResult :=
  if s.is_streaming then AgentCallResult.failAlreadyProcessing
  else if s.messages.length = 0 then AgentCallResult.failNoMessages
  else if (s.messages.getLast?.map HistoryMessage.role) = some Role.assistant then
    let steering := (dequeue_messages s.steering_mode s.steering_queue).1
    if steering.length > 0 then
      if s.model.isNone then AgentCallResult.failNoModel
      else AgentCallResult.started steering true true
    else
      let follow_up := (dequeue_messages s.follow_up_mode s.follow_up_queue).1
      if follow_up.length > 0 then
        if s.model.isNone then AgentCallResult.failNoModel
        else AgentCallResult.started follow_up false true
      else AgentCallResult.failCannotContinueFromAssistant
  else
    if s.model.isNone then AgentCallResult.failNoModel
    else AgentCallResult.started [] false false

/-- `Agent.prompt` (pi_agent/agent.py lines 200-230): the streaming guard,
then the model guard, then an activation seeded with the prompt
messages. -/
def prompt_run (s : AgentSnapshot) (prompts : List AgentMessage) : AgentCallResult :=
  if s.is_streaming then AgentCallResult.failAlreadyProcessing
  else if s.model.isNone then AgentCallResult.failNoModel
  else AgentCallResult.started prompts false true

/-! ### The single-flight transition system

`_run_loop` sets `is_streaming := true` when an activation starts
(pi_agent/agent.py line 269) and resets it in its `finally` block (line
403); `prompt()`/`continue_()` refuse to start while it is set.  The
number of activations in flight is tracked alongside. -/

/-- An event of the agent's lifecycle, abstracted from the call sites. -/
inductive AgentOp where
  | promptCall
  | continueCall
  | finishActivation
deriving DecidableEq, Repr

/-- Streaming flag plus the count of activations in flight. -/
structure FlightState where
  streaming : Bool
  in_flight : ℕ
deriving DecidableEq, Repr

/-- One lifecycle step: a `prompt`/`continue_` call starts an activation
only when `streaming` is off (otherwise it fails immediately and changes
nothing); an activation's `finally` block clears the flag. -/
def flight_step (st : FlightState) : AgentOp → FlightState
  | AgentOp.promptCall =>
    if st.streaming then st else ⟨true, st.in_flight + 1⟩
  | AgentOp.continueCall =>
    if st.streaming then st else ⟨true, st.in_flight + 1⟩
  | AgentOp.finishActivation =>
    if st.streaming then ⟨false, st.in_flight - 1⟩ else st

/-- Run a sequence of lifecycle steps. -/
def flight_run (st : FlightState) : List AgentOp → FlightState
  | [] => st
  | op :: ops => flight_run (flight_step st op) ops

/-- The idle initial state of a fresh `Agent`. -/
def flight_init : FlightState := ⟨false, 0⟩

/-! ## Theorems -/

/-- C3, counterexample: the claim reads every stop-reason mapping function
as sending "tool_use" to tool_use and "max_tokens" to length, but the
Anthropic adapter's table has no "tool_use" entry (it falls to the "stop"
default), and the OpenAI-style table has no "max_tokens" entry either. -/
theorem C3_stop_reason_counterexample :
    map_anthropic_stop_reason "tool_use" = "stop"
      ∧ ("stop" : String) ≠ "toolUse"
      ∧ map_finish_reason "max_tokens" = "stop"
      ∧ ("stop" : String) ≠ "length" := by
  refine ⟨rfl, ?_, rfl, ?_⟩ <;> decide

/-- C3, as amended: `_map_anthropic_stop_reason` sends end_turn to stop,
max_tokens to length, stop_sequence to toolUse and every other code —
including "stop" and "tool_use" — to stop; `_map_finish_reason` (OpenAI,
openai_enhanced, Mistral, Zhipu) sends stop to stop, length to length,
tool_calls to toolUse, content_filter to stop and every other code —
including "end_turn", "max_tokens", "tool_use" and "stop_sequence" — to
stop. -/
theorem C3_stop_reason_mapping :
    map_anthropic_stop_reason "end_turn" = "stop"
      ∧ map_anthropic_stop_reason "max_tokens" = "length"
      ∧ map_anthropic_stop_reason "stop_sequence" = "toolUse"
      ∧ (∀ r : String, r ≠ "end_turn" → r ≠ "max_tokens" → r ≠ "stop_sequence" →
          map_anthropic_stop_reason r = "stop")
      ∧ map_finish_reason "stop" = "stop"
      ∧ map_finish_reason "length" = "length"
      ∧ map_finish_reason "tool_calls" = "toolUse"
      ∧ map_finish_reason "content_filter" = "stop"
      ∧ (∀ r : String, r ≠ "stop" → r ≠ "length" → r ≠ "tool_calls" →
          r ≠ "content_filter" → map_finish_reason r = "stop") := by
  refine ⟨rfl, rfl, rfl, ?_, rfl, rfl, rfl, rfl, ?_⟩
  · intro r h1 h2 h3
    simp [map_anthropic_stop_reason, h1, h2, h3]
  · intro r h1 h2 h3 h4
    simp [map_finish_reason, h1, h2, h3, h4]

/-- C3, witness: the amended mapping evaluated on codes outside both
tables. -/
theorem C3_stop_reason_mapping_witness :
    map_anthropic_stop_reason "tool_calls" = "stop"
      ∧ map_finish_reason "stop_sequence" = "stop" :=
  ⟨C3_stop_reason_mapping.2.2.2.1 "tool_calls" (by decide) (by decide) (by decide),
   C3_stop_reason_mapping.2.2.2.2.2.2.2.2 "stop_sequence" (by decide) (by decide)
     (by decide) (by decide)⟩

/-- C9: each component of `calculate_cost` is the token count times the
per-million price divided by 1,000,000, and the total is the sum of the
four components. -/
theorem C9_calculate_cost (model : Model) (usage : Usage) :
    (calculate_cost model usage).input = usage.input * (model.cost.input / 1000000)
      ∧ (calculate_cost model usage).output = usage.output * (model.cost.output / 1000000)
      ∧ (calculate_cost model usage).cache_read
          = usage.cache_read * (model.cost.cache_read / 1000000)
      ∧ (calculate_cost model usage).cache_write
          = usage.cache_write * (model.cost.cache_write / 1000000)
      ∧ (calculate_cost model usage).total
          = (calculate_cost model usage).input + (calculate_cost model usage).output
              + (calculate_cost model usage).cache_read
              + (calculate_cost model usage).cache_write := by
  refine ⟨?_, ?_, ?_, ?_, rfl⟩ <;> simp [calculate_cost, mul_comm]

/-- C2, counterexample: the claim says the backoff delay is capped at
`max_retry_delay_ms`, but `_exponential_backoff` applies no cap: with
`retry_delay_ms = 1000`, attempt 4, zero jitter and
`max_retry_delay_ms = 5000`, the code waits 16000 ms where the capped
formula gives 5000 ms. -/
theorem C2_backoff_counterexample :
    exponential_backoff_delay 4 1000 0 = 16000
      ∧ spec_capped_backoff_delay 4 1000 0 5000 = 5000
      ∧ exponential_backoff_delay 4 1000 0 ≠ spec_capped_backoff_delay 4 1000 0 5000 := by
  refine ⟨by norm_num [exponential_backoff_delay], by norm_num [spec_capped_backoff_delay], ?_⟩
  norm_num [exponential_backoff_delay, spec_capped_backoff_delay]

/-- The delays recorded by the retry loop from attempt `attempt` on:
one uncapped exponential-backoff delay per retried attempt, consecutive
attempts, all of them below `max_retries`. -/
lemma retry_go_delays (rrl : Bool) (base : ℕ) (jitter : ℕ → ℕ)
    (outcome : ℕ → AttemptOutcome) (max_retries : ℕ) :
    ∀ (fuel attempt : ℕ),
      ∃ m, (m = 0 ∨ attempt + m ≤ max_retries)
        ∧ (retry_go rrl base jitter outcome max_retries attempt fuel).delays
            = (List.range m).map
                (fun k => exponential_backoff_delay (attempt + k) base (jitter (attempt + k))) := by
  intro fuel
  induction fuel with
  | zero =>
    intro attempt
    exact ⟨0, Or.inl rfl, by simp [retry_go]⟩
  | succ fuel ih =>
    intro attempt
    cases houtcome : outcome attempt with
    | ok =>
      exact ⟨0, Or.inl rfl, by simp [retry_go, houtcome]⟩
    | timedOut =>
      by_cases hlt : attempt < max_retries
      · obtain ⟨m, hm, hd⟩ := ih (attempt + 1)
        refine ⟨m + 1, Or.inr (by omega), ?_⟩
        have hfun : ∀ k : ℕ, attempt + 1 + k = attempt + (k + 1) := by omega
        simp only [retry_go, houtcome, if_pos hlt, hd, List.range_succ_eq_map,
          List.map_cons, List.map_map, Function.comp_def, Nat.add_zero,
          Nat.succ_eq_add_one, hfun]
      · exact ⟨0, Or.inl rfl, by simp [retry_go, houtcome, if_neg hlt]⟩
    | err msg =>
      by_cases hp : (is_rate_limit msg = true ∧ rrl = true) ∧ attempt < max_retries
      · have hlt : attempt < max_retries := hp.2
        obtain ⟨m, hm, hd⟩ := ih (attempt + 1)
        refine ⟨m + 1, Or.inr (by omega), ?_⟩
        have hfun : ∀ k : ℕ, attempt + 1 + k = attempt + (k + 1) := by omega
        simp only [retry_go, houtcome, Bool.and_eq_true, decide_eq_true_eq, if_pos hp,
          hd, List.range_succ_eq_map, List.map_cons, List.map_map, Function.comp_def,
          Nat.add_zero, Nat.succ_eq_add_one, hfun]
      · exact ⟨0, Or.inl rfl, by
          simp only [retry_go, houtcome, Bool.and_eq_true, decide_eq_true_eq, if_neg hp,
            List.range_zero, List.map_nil]⟩

/-- C2, as amended: for runs of the retry loop the backoff delays are
exactly `retry_delay_ms * 2 ^ k + jitter_k` for consecutive attempts
`k = 0, 1, ..., m - 1` with `m ≤ max_retries` — at most `max_retries`
retries are performed — and with the jitter drawn from 0..1000 ms each
delay is at most `retry_delay_ms * 2 ^ k + 1000`; no cap is applied
(`max_retry_delay_ms` is forwarded to the provider options and never read
by the backoff). -/
theorem C2_backoff_formula (rrl : Bool) (base : ℕ) (jitter : ℕ → ℕ)
    (outcome : ℕ → AttemptOutcome) (max_retries : ℕ)
    (hjitter : ∀ k, jitter k ≤ 1000) :
    ∃ m, m ≤ max_retries
      ∧ (stream_retries rrl base jitter outcome max_retries).delays
          = (List.range m).map (fun k => exponential_backoff_delay k base (jitter k))
      ∧ ∀ k, k < m →
          exponential_backoff_delay k base (jitter k) = base * 2 ^ k + jitter k
            ∧ exponential_backoff_delay k base (jitter k) ≤ base * 2 ^ k + 1000 := by
  obtain ⟨m, hm, hd⟩ :=
    retry_go_delays rrl base jitter outcome max_retries (max_retries + 1) 0
  refine ⟨m, by omega, ?_, ?_⟩
  · simpa [stream_retries] using hd
  · intro k _
    exact ⟨rfl, by have := hjitter k; simp [exponential_backoff_delay]; omega⟩

/-- C2, witness: a run where every attempt fails with a rate-limited
error, `max_retries = 3`, base delay 1000 ms and zero jitter. -/
theorem C2_backoff_formula_witness :
    ∃ m, m ≤ 3
      ∧ (stream_retries true 1000 (fun _ => 0)
            (fun _ => AttemptOutcome.err "rate limited") 3).delays
          = (List.range m).map (fun k => exponential_backoff_delay k 1000 0)
      ∧ ∀ k, k < m →
          exponential_backoff_delay k 1000 0 = 1000 * 2 ^ k + 0
            ∧ exponential_backoff_delay k 1000 0 ≤ 1000 * 2 ^ k + 1000 :=
  C2_backoff_formula true 1000 (fun _ => 0)
    (fun _ => AttemptOutcome.err "rate limited") 3 (fun _ => by norm_num)

/-- The characters of `normalize_mistral_tool_id s`: the alphanumeric
characters of `s`, truncated to 9 or padded with a prefix of
"ABCDEFGHI" up to 9. -/
lemma normalize_mistral_tool_id_data (s : String) :
    (normalize_mistral_tool_id s).data =
      (if 9 ≤ (s.data.filter Char.isAlphanum).length
       then (s.data.filter Char.isAlphanum).take 9
       else (s.data.filter Char.isAlphanum)
         ++ "ABCDEFGHI".data.take (9 - (s.data.filter Char.isAlphanum).length)) := by
  set n := s.data.filter Char.isAlphanum with hn
  simp only [normalize_mistral_tool_id]
  rw [← hn]
  rcases Nat.lt_trichotomy n.length 9 with h | h | h
  · rw [if_pos (by simpa [String.length] using h), if_neg (by omega)]
    simp [String.data_append]
  · rw [if_neg (by simp [String.length]; omega), if_neg (by simp [String.length]; omega),
      if_pos (by omega)]
    simp [h, List.take_of_length_le]
  · rw [if_neg (by simp [String.length]; omega), if_pos (by simpa [String.length] using h),
      if_pos (by omega)]

/-- C5: `normalize_mistral_tool_id` always returns exactly 9 alphanumeric
characters, obtained by dropping the non-alphanumeric characters of the
input and then truncating to the first 9 or right-padding with a prefix
of "ABCDEFGHI". -/
theorem C5_normalize_mistral_tool_id (s : String) :
    (normalize_mistral_tool_id s).length = 9
      ∧ (normalize_mistral_tool_id s).data.all Char.isAlphanum = true
      ∧ (normalize_mistral_tool_id s).data =
          (if 9 ≤ (s.data.filter Char.isAlphanum).length
           then (s.data.filter Char.isAlphanum).take 9
           else (s.data.filter Char.isAlphanum)
             ++ "ABCDEFGHI".data.take (9 - (s.data.filter Char.isAlphanum).length)) := by
  have hd := normalize_mistral_tool_id_data s
  have hlen : (normalize_mistral_tool_id s).length = (normalize_mistral_tool_id s).data.length :=
    rfl
  have hfilter : (s.data.filter Char.isAlphanum).all Char.isAlphanum = true := by
    simp only [List.all_eq_true]
    intro a ha
    exact List.of_mem_filter ha
  have hpad : ∀ m : ℕ, ("ABCDEFGHI".data.take m).all Char.isAlphanum = true := by
    intro m
    have hfull : "ABCDEFGHI".data.all Char.isAlphanum = true := by decide
    simp only [List.all_eq_true] at hfull ⊢
    intro a ha
    exact hfull a (List.take_subset m _ ha)
  refine ⟨?_, ?_, hd⟩
  · rw [hlen, hd]
    split
    · next h => simp only [List.length_take]; omega
    · next h =>
      have h9 : ("ABCDEFGHI".data).length = 9 := by decide
      simp only [List.length_append, List.length_take, h9]
      omega
  · rw [hd]
    split
    · next h =>
      simp only [List.all_eq_true] at hfilter ⊢
      intro a ha
      exact hfilter a (List.take_subset 9 _ ha)
    · next h =>
      simp only [List.all_append, hfilter, hpad, Bool.and_self]

/-- A step never changes the completion predicate of the stream. -/
lemma EventStream.is_complete_step {T R : Type} (s : EventStream T R) (op : StreamOp T R) :
    (s.step op).is_complete = s.is_complete := by
  cases op with
  | push e =>
    simp only [EventStream.step, EventStream.push]
    split
    · rfl
    · split <;> rfl
  | end_ r => rfl

/-- Once the result future holds a value, no step replaces it. -/
lemma EventStream.final_result_step_mono {T R : Type} (s : EventStream T R)
    (op : StreamOp T R) (v : R) (h : s.final_result = some v) :
    (s.step op).final_result = some v := by
  cases op with
  | push e =>
    simp only [EventStream.step, EventStream.push]
    split
    · exact h
    · split
      · simp [h]
      · exact h
  | end_ r =>
    cases r with
    | none => exact h
    | some r => simp [EventStream.step, EventStream.end_, h]

/-- C4: after the stream is done — a completing event was pushed, or
`end` was called — every further `push` returns the state unchanged
(queue and result future included), and over any sequence of `push`/`end`
operations a resolved result future keeps its value, so it is resolved at
most once. -/
theorem C4_eventstream_completion (T R : Type) :
    (∀ (s : EventStream T R) (e : T), s.done = true → s.push e = s)
      ∧ (∀ (s : EventStream T R) (e : T), s.is_complete e = true → (s.push e).done = true)
      ∧ (∀ (s : EventStream T R) (r : Option R), (s.end_ r).done = true)
      ∧ (∀ (s : EventStream T R) (ops : List (StreamOp T R)) (v : R),
          s.final_result = some v → (s.run ops).final_result = some v) := by
  refine ⟨?_, ?_, ?_, ?_⟩
  · intro s e h
    simp [EventStream.push, h]
  · intro s e h
    by_cases hdone : s.done
    · simp [EventStream.push, hdone]
    · simp [EventStream.push, hdone, h]
  · intro s r
    rfl
  · intro s ops
    induction ops generalizing s with
    | nil => intro v h; exact h
    | cons op ops ih =>
      intro v h
      exact ih (s.step op) v (EventStream.final_result_step_mono s op v h)

/-- A sample stream for the witnesses: done, with a resolved result. -/
def sampleDoneStream : EventStream ℕ ℕ :=
  { is_complete := fun e => e == 7
    extract_result := fun e => e + 1
    queue := [some 1]
    done := true
    final_result := some 5 }

/-- C4, witness: on a done stream with result 5, a push of 3 changes
nothing, a push of the completing event 7 keeps it done, `end` keeps it
done, and a run of further operations keeps the result at 5. -/
theorem C4_eventstream_completion_witness :
    sampleDoneStream.push 3 = sampleDoneStream
      ∧ (sampleDoneStream.push 7).done = true
      ∧ (sampleDoneStream.end_ (some 9)).done = true
      ∧ (sampleDoneStream.run [StreamOp.push 3, StreamOp.end_ (some 9)]).final_result = some 5 :=
  ⟨(C4_eventstream_completion ℕ ℕ).1 sampleDoneStream 3 rfl,
   (C4_eventstream_completion ℕ ℕ).2.1 sampleDoneStream 7 rfl,
   (C4_eventstream_completion ℕ ℕ).2.2.1 sampleDoneStream (some 9),
   (C4_eventstream_completion ℕ ℕ).2.2.2 sampleDoneStream
     [StreamOp.push 3, StreamOp.end_ (some 9)] 5 rfl⟩

/-- Operations that supply no result keep the result future unresolved. -/
lemma EventStream.final_result_none_run {T R : Type} (s : EventStream T R)
    (ops : List (StreamOp T R)) (hres : s.final_result = none)
    (hsafe : ∀ op ∈ ops, suppliesNoResult s.is_complete op) :
    (s.run ops).final_result = none := by
  induction ops generalizing s with
  | nil => exact hres
  | cons op ops ih =>
    have hstep : (s.step op).final_result = none := by
      have hop := hsafe op (List.mem_cons_self op ops)
      cases op with
      | push e =>
        simp only [suppliesNoResult] at hop
        simp only [EventStream.step, EventStream.push]
        split
        · exact hres
        · split
          · next hc => rw [hop] at hc; exact absurd hc (by simp)
          · exact hres
      | end_ r =>
        simp only [suppliesNoResult] at hop
        subst hop
        exact hres
    refine ih (s.step op) hstep ?_
    intro op' hop'
    rw [EventStream.is_complete_step]
    exact hsafe op' (List.mem_cons_of_mem op hop')

/-- C10: on a stream whose result future is unresolved and which only saw
non-completing pushes and resultless `end`s, a final `end()` with no
result marks the stream done and enqueues the sentinel — iteration
terminates — while the result future stays unresolved. -/
theorem C10_end_without_result (T R : Type) (s : EventStream T R)
    (ops : List (StreamOp T R)) (hres : s.final_result = none)
    (hsafe : ∀ op ∈ ops, suppliesNoResult s.is_complete op) :
    ((s.run ops).end_ none).done = true
      ∧ ((s.run ops).end_ none).final_result = none
      ∧ ((s.run ops).end_ none).queue = (s.run ops).queue ++ [none] := by
  refine ⟨rfl, ?_, rfl⟩
  simpa [EventStream.end_] using EventStream.final_result_none_run s ops hres hsafe

/-- A sample stream for the C10 witness: fresh, nothing resolved. -/
def sampleFreshStream : EventStream ℕ ℕ :=
  { is_complete := fun e => e == 7
    extract_result := fun e => e + 1
    queue := []
    done := false
    final_result := none }

/-- C10, witness: pushing the non-completing events 1 and 2 and then
calling `end` with no result leaves the stream done, the result future
unresolved and the sentinel after the two events. -/
theorem C10_end_without_result_witness :
    ((sampleFreshStream.run [StreamOp.push 1, StreamOp.push 2]).end_ none).done = true
      ∧ ((sampleFreshStream.run [StreamOp.push 1, StreamOp.push 2]).end_ none).final_result = none
      ∧ ((sampleFreshStream.run [StreamOp.push 1, StreamOp.push 2]).end_ none).queue
          = (sampleFreshStream.run [StreamOp.push 1, StreamOp.push 2]).queue ++ [none] :=
  C10_end_without_result ℕ ℕ sampleFreshStream [StreamOp.push 1, StreamOp.push 2] rfl
    (by
      intro op hop
      simp only [List.mem_cons, List.not_mem_nil, or_false] at hop
      rcases hop with rfl | rfl <;> rfl)

/-- The executor interrupted by the first non-empty steering poll, made
after `k + 1` completed calls: the executed calls' results followed by
one skip result per remaining call, and the polled steering messages
returned. -/
lemma run_tool_calls_interrupt (tool_timeout_ms : Option ℕ)
    (execOutcome : ToolCall → ExecOutcome) (steer : ℕ → List AgentMessage) :
    ∀ (calls : List ToolCall) (idx k : ℕ), k + 1 ≤ calls.length →
      (∀ j, j < k → steer (idx + j) = []) →
      steer (idx + k) ≠ [] →
      run_tool_calls tool_timeout_ms execOutcome steer calls idx =
        ((calls.take (k + 1)).map
            (fun c => exec_result_message tool_timeout_ms c (execOutcome c))
          ++ (calls.drop (k + 1)).map skip_tool_call,
         some (steer (idx + k))) := by
  intro calls
  induction calls with
  | nil =>
    intro idx k hk
    simp at hk
  | cons c rest ih =>
    intro idx k hk hempty hpoll
    cases k with
    | zero =>
      have hpos : (steer idx).length > 0 := by
        simpa [Nat.add_zero, List.length_pos] using hpoll
      simp only [run_tool_calls, if_pos hpos, List.take, List.drop, List.map_cons,
        List.map_nil, Nat.add_zero]
      simp
    | succ k =>
      have hzero : steer idx = [] := by
        have := hempty 0 (Nat.succ_pos k)
        simpa using this
      have hnpos : ¬ (steer idx).length > 0 := by simp [hzero]
      have harith : idx + 1 + k = idx + (k + 1) := by omega
      have hrec := ih (idx + 1) k (by simpa using hk)
        (fun j hj => by
          have := hempty (j + 1) (by omega)
          simpa [Nat.add_assoc, Nat.add_comm 1 j] using this)
        (by rw [harith]; exact hpoll)
      simp only [run_tool_calls, if_neg hnpos, hrec, harith, List.take_succ_cons,
        List.drop_succ_cons, List.map_cons, List.cons_append]

/-- C1: when the steering poll after the `i`-th completed tool call of an
`n`-call batch (1 ≤ i < n) is the first to return a non-empty list, the
executor returns exactly `n` tool-result messages — the first `i` the
real results of the executed calls, each of the remaining `n - i` an
error result with text "Skipped due to queued user message." — in the
order of the original calls, together with the polled steering
messages. -/
theorem C1_steering_interrupt (tool_timeout_ms : Option ℕ)
    (execOutcome : ToolCall → ExecOutcome) (steer : ℕ → List AgentMessage)
    (calls : List ToolCall) (i : ℕ) (h1 : 1 ≤ i) (h2 : i < calls.length)
    (hempty : ∀ j, j < i - 1 → steer j = [])
    (hpoll : steer (i - 1) ≠ []) :
    (execute_tool_calls tool_timeout_ms execOutcome steer calls).1.length = calls.length
      ∧ (execute_tool_calls tool_timeout_ms execOutcome steer calls).1 =
          (calls.take i).map (fun c => exec_result_message tool_timeout_ms c (execOutcome c))
            ++ (calls.drop i).map skip_tool_call
      ∧ (∀ m ∈ (calls.drop i).map skip_tool_call,
          m.is_error = true
            ∧ m.content = [ContentBlock.text "Skipped due to queued user message."])
      ∧ (execute_tool_calls tool_timeout_ms execOutcome steer calls).2 = some (steer (i - 1)) := by
  obtain ⟨k, rfl⟩ : ∃ k, i = k + 1 := ⟨i - 1, by omega⟩
  have hrun := run_tool_calls_interrupt tool_timeout_ms execOutcome steer calls 0 k
    (by omega) (fun j hj => by simpa using hempty j (by omega))
    (by simpa using hpoll)
  have h1' : (execute_tool_calls tool_timeout_ms execOutcome steer calls).1 =
      (calls.take (k + 1)).map (fun c => exec_result_message tool_timeout_ms c (execOutcome c))
        ++ (calls.drop (k + 1)).map skip_tool_call := by
    simp [execute_tool_calls, hrun]
  refine ⟨?_, h1', ?_, ?_⟩
  · rw [h1']
    simp only [List.length_append, List.length_map, List.length_take, List.length_drop]
    omega
  · intro m hm
    simp only [List.mem_map] at hm
    obtain ⟨c, _, rfl⟩ := hm
    exact ⟨rfl, rfl⟩
  · simp only [execute_tool_calls, hrun]
    simp

/-- C1, witness: a batch of two calls where the poll after the first
completed call returns a steering message. -/
theorem C1_steering_interrupt_witness :
    (execute_tool_calls none (fun _ => ExecOutcome.success ⟨[], Details.empty⟩)
        (fun _ => [⟨"user", "stop"⟩])
        [⟨"a", "t1", "{}"⟩, ⟨"b", "t2", "{}"⟩]).1.length = 2
      ∧ (execute_tool_calls none (fun _ => ExecOutcome.success ⟨[], Details.empty⟩)
          (fun _ => [⟨"user", "stop"⟩])
          [⟨"a", "t1", "{}"⟩, ⟨"b", "t2", "{}"⟩]).1 =
        ([⟨"a", "t1", "{}"⟩] : List ToolCall).map
            (fun c => exec_result_message none c (ExecOutcome.success ⟨[], Details.empty⟩))
          ++ ([⟨"b", "t2", "{}"⟩] : List ToolCall).map skip_tool_call := by
  have h := C1_steering_interrupt none (fun _ => ExecOutcome.success ⟨[], Details.empty⟩)
    (fun _ => [⟨"user", "stop"⟩]) [⟨"a", "t1", "{}"⟩, ⟨"b", "t2", "{}"⟩] 1
    (by omega) (by simp) (by omega) (by simp)
  exact ⟨by simpa using h.1, by simpa using h.2.1⟩

/-- The executor with a steering source that always polls empty: one
result per call, in order, no interruption. -/
lemma run_tool_calls_no_steering (tool_timeout_ms : Option ℕ)
    (execOutcome : ToolCall → ExecOutcome) (steer : ℕ → List AgentMessage)
    (hs : ∀ j, steer j = []) :
    ∀ (calls : List ToolCall) (idx : ℕ),
      run_tool_calls tool_timeout_ms execOutcome steer calls idx =
        (calls.map (fun c => exec_result_message tool_timeout_ms c (execOutcome c)), none) := by
  intro calls
  induction calls with
  | nil => intro idx; rfl
  | cons c rest ih =>
    intro idx
    have hnpos : ¬ (steer idx).length > 0 := by simp [hs idx]
    simp only [run_tool_calls, if_neg hnpos, ih (idx + 1), List.map_cons]

/-- C6: a tool call whose `execute` hits the configured timeout yields a
tool-result message with `is_error = true`,
`details = {timeout_ms: tool_timeout_ms}` and a text naming the timeout;
the call is not retried — each call contributes exactly one result — and
the remaining calls of the batch still run, one result each. -/
theorem C6_tool_timeout (t : ℕ) (execOutcome : ToolCall → ExecOutcome)
    (steer : ℕ → List AgentMessage) (calls : List ToolCall) (i : ℕ) (c : ToolCall)
    (hs : ∀ j, steer j = []) (hc : calls[i]? = some c)
    (ht : execOutcome c = ExecOutcome.timeout) :
    (execute_tool_calls (some t) execOutcome steer calls).1 =
        calls.map (fun c => exec_result_message (some t) c (execOutcome c))
      ∧ (execute_tool_calls (some t) execOutcome steer calls).1.length = calls.length
      ∧ (execute_tool_calls (some t) execOutcome steer calls).1[i]? =
          some { tool_call_id := c.id, tool_name := c.name
                 content := [ContentBlock.text
                   ("Tool '" ++ c.name ++ "' timed out after " ++ toString t ++ "ms")]
                 details := Details.timeoutMs t, is_error := true }
      ∧ (execute_tool_calls (some t) execOutcome steer calls).2 = none := by
  have hrun := run_tool_calls_no_steering (some t) execOutcome steer hs calls 0
  have h1 : (execute_tool_calls (some t) execOutcome steer calls).1 =
      calls.map (fun c => exec_result_message (some t) c (execOutcome c)) := by
    simp [execute_tool_calls, hrun]
  refine ⟨h1, by simp [h1], ?_, by simp [execute_tool_calls, hrun]⟩
  rw [h1, List.getElem?_map, hc]
  simp [exec_result_message, ht]

/-- C6, witness: a two-call batch whose second call times out with a
60000 ms limit. -/
theorem C6_tool_timeout_witness :
    (execute_tool_calls (some 60000)
        (fun c => if c.id = "b" then ExecOutcome.timeout
          else ExecOutcome.success ⟨[], Details.empty⟩)
        (fun _ => []) [⟨"a", "t1", "{}"⟩, ⟨"b", "t2", "{}"⟩]).1.length = 2
      ∧ (execute_tool_calls (some 60000)
          (fun c => if c.id = "b" then ExecOutcome.timeout
            else ExecOutcome.success ⟨[], Details.empty⟩)
          (fun _ => []) [⟨"a", "t1", "{}"⟩, ⟨"b", "t2", "{}"⟩]).1[1]? =
        some { tool_call_id := "b", tool_name := "t2"
               content := [ContentBlock.text "Tool 't2' timed out after 60000ms"]
               details := Details.timeoutMs 60000, is_error := true } := by
  have h := C6_tool_timeout 60000
    (fun c => if c.id = "b" then ExecOutcome.timeout
      else ExecOutcome.success ⟨[], Details.empty⟩)
    (fun _ => []) [⟨"a", "t1", "{}"⟩, ⟨"b", "t2", "{}"⟩] 1 ⟨"b", "t2", "{}"⟩
    (fun _ => rfl) (by rfl) (by rfl)
  exact ⟨h.2.1, by simpa using h.2.2.1⟩

/-- C7: with the agent idle and a model configured, `continue_` fails on
an empty history, fails on a history ending in an assistant message when
both queues dequeue empty, and otherwise starts: a fresh activation
seeded with the dequeued steering messages with the initial steering
drain skipped when the steering queue dequeues non-empty; else a fresh
activation seeded with the dequeued follow-up messages; and a plain
continuation of the history when the last message is not an assistant
message. -/
theorem C7_continue_dispatch (s : AgentSnapshot)
    (hstream : s.is_streaming = false) (hmodel : s.model.isNone = false) :
    (s.messages = [] → continue_run s = AgentCallResult.failNoMessages)
      ∧ (∀ m, s.messages.getLast? = some m → m.role ≠ Role.assistant →
          continue_run s = AgentCallResult.started [] false false)
      ∧ (∀ m, s.messages.getLast? = some m → m.role = Role.assistant →
          (dequeue_messages s.steering_mode s.steering_queue).1 ≠ [] →
          continue_run s =
            AgentCallResult.started (dequeue_messages s.steering_mode s.steering_queue).1
              true true)
      ∧ (∀ m, s.messages.getLast? = some m → m.role = Role.assistant →
          (dequeue_messages s.steering_mode s.steering_queue).1 = [] →
          (dequeue_messages s.follow_up_mode s.follow_up_queue).1 ≠ [] →
          continue_run s =
            AgentCallResult.started (dequeue_messages s.follow_up_mode s.follow_up_queue).1
              false true)
      ∧ (∀ m, s.messages.getLast? = some m → m.role = Role.assistant →
          (dequeue_messages s.steering_mode s.steering_queue).1 = [] →
          (dequeue_messages s.follow_up_mode s.follow_up_queue).1 = [] →
          continue_run s = AgentCallResult.failCannotContinueFromAssistant) := by
  refine ⟨?_, ?_, ?_, ?_, ?_⟩
  · intro hmsgs
    simp [continue_run, hstream, hmsgs]
  · intro m hlast hrole
    have hne : s.messages.length ≠ 0 := by
      intro h0
      rw [List.length_eq_zero] at h0
      simp [h0] at hlast
    have hlastrole : ¬ (s.messages.getLast?.map HistoryMessage.role = some Role.assistant) := by
      rw [hlast]
      simpa using hrole
    simp [continue_run, hstream, hne, hlastrole, hmodel]
  · intro m hlast hrole hsteer
    have hne : s.messages.length ≠ 0 := by
      intro h0
      rw [List.length_eq_zero] at h0
      simp [h0] at hlast
    have hlastrole : s.messages.getLast?.map HistoryMessage.role = some Role.assistant := by
      simp [hlast, hrole]
    have hpos : (dequeue_messages s.steering_mode s.steering_queue).1.length > 0 :=
      List.length_pos.mpr hsteer
    simp [continue_run, hstream, hne, hlastrole, hpos, hmodel]
  · intro m hlast hrole hsteer hfu
    have hne : s.messages.length ≠ 0 := by
      intro h0
      rw [List.length_eq_zero] at h0
      simp [h0] at hlast
    have hlastrole : s.messages.getLast?.map HistoryMessage.role = some Role.assistant := by
      simp [hlast, hrole]
    have hpos : (dequeue_messages s.follow_up_mode s.follow_up_queue).1.length > 0 :=
      List.length_pos.mpr hfu
    simp [continue_run, hstream, hne, hlastrole, hsteer, hpos, hmodel]
  · intro m hlast hrole hsteer hfu
    have hne : s.messages.length ≠ 0 := by
      intro h0
      rw [List.length_eq_zero] at h0
      simp [h0] at hlast
    have hlastrole : s.messages.getLast?.map HistoryMessage.role = some Role.assistant := by
      simp [hlast, hrole]
    simp [continue_run, hstream, hne, hlastrole, hsteer, hfu]

/-- A sample model descriptor for the witnesses. -/
def sampleModel : Model :=
  { id := "gpt-4o", provider := "openai", cost := ⟨5, 10, 1, 1⟩ }

/-- An idle snapshot whose history ends in an assistant message, with one
steering message queued, in one-at-a-time mode. -/
def sampleSnapshot : AgentSnapshot :=
  { is_streaming := false
    model := some sampleModel
    messages := [⟨Role.user⟩, ⟨Role.assistant⟩]
    steering_queue := [⟨"user", "stop"⟩, ⟨"user", "more"⟩]
    follow_up_queue := []
    steering_mode := QueueMode.oneAtATime
    follow_up_mode := QueueMode.oneAtATime }

/-- C7, witness: on `sampleSnapshot`, `continue_` starts a fresh
activation seeded with the first queued steering message and skips the
initial steering drain. -/
theorem C7_continue_dispatch_witness :
    continue_run sampleSnapshot =
      AgentCallResult.started [⟨"user", "stop"⟩] true true :=
  (C7_continue_dispatch sampleSnapshot rfl rfl).2.2.1 ⟨Role.assistant⟩ rfl rfl
    (by decide)

/-- The single-flight invariant of the lifecycle transition system: the
in-flight count tracks the streaming flag. -/
lemma flight_run_invariant :
    ∀ (ops : List AgentOp) (st : FlightState),
      st.in_flight = (if st.streaming then 1 else 0) →
      (flight_run st ops).in_flight = (if (flight_run st ops).streaming then 1 else 0) := by
  intro ops
  induction ops with
  | nil => intro st h; exact h
  | cons op ops ih =>
    intro st h
    refine ih (flight_step st op) ?_
    cases op with
    | promptCall =>
      by_cases hs : st.streaming <;> simp [flight_step, hs] at h ⊢ <;> omega
    | continueCall =>
      by_cases hs : st.streaming <;> simp [flight_step, hs] at h ⊢ <;> omega
    | finishActivation =>
      by_cases hs : st.streaming <;> simp [flight_step, hs] at h ⊢ <;> omega

/-- C8: while `is_streaming` is set, `prompt()` and `continue_()` fail
immediately with the already-processing error, a `prompt`/`continue_`
call against a streaming lifecycle state changes nothing — no second
activation starts — and over every sequence of calls from the idle state
at most one activation is in flight. -/
theorem C8_single_flight :
    (∀ (s : AgentSnapshot) (prompts : List AgentMessage), s.is_streaming = true →
        prompt_run s prompts = AgentCallResult.failAlreadyProcessing)
      ∧ (∀ s : AgentSnapshot, s.is_streaming = true →
          continue_run s = AgentCallResult.failAlreadyProcessing)
      ∧ (∀ st : FlightState, st.streaming = true →
          flight_step st AgentOp.promptCall = st
            ∧ flight_step st AgentOp.continueCall = st)
      ∧ (∀ ops : List AgentOp, (flight_run flight_init ops).in_flight ≤ 1) := by
  refine ⟨?_, ?_, ?_, ?_⟩
  · intro s prompts h
    simp [prompt_run, h]
  · intro s h
    simp [continue_run, h]
  · intro st h
    exact ⟨by simp [flight_step, h], by simp [flight_step, h]⟩
  · intro ops
    have h := flight_run_invariant ops flight_init rfl
    rw [h]
    split <;> omega

/-- A streaming snapshot for the C8 witness. -/
def sampleStreamingSnapshot : AgentSnapshot :=
  { sampleSnapshot with is_streaming := true }

/-- C8, witness: a concurrent `prompt` and `continue_` against a
streaming agent fail with the already-processing error, the streaming
lifecycle state absorbs both calls, and a concrete call sequence keeps at
most one activation in flight. -/
theorem C8_single_flight_witness :
    prompt_run sampleStreamingSnapshot [⟨"user", "hi"⟩]
        = AgentCallResult.failAlreadyProcessing
      ∧ continue_run sampleStreamingSnapshot = AgentCallResult.failAlreadyProcessing
      ∧ flight_step ⟨true, 1⟩ AgentOp.promptCall = ⟨true, 1⟩
      ∧ (flight_run flight_init
          [AgentOp.promptCall, AgentOp.continueCall, AgentOp.finishActivation,
            AgentOp.continueCall]).in_flight ≤ 1 :=
  ⟨C8_single_flight.1 sampleStreamingSnapshot [⟨"user", "hi"⟩] rfl,
   C8_single_flight.2.1 sampleStreamingSnapshot rfl,
   (C8_single_flight.2.2.1 ⟨true, 1⟩ rfl).1,
   C8_single_flight.2.2.2
     [AgentOp.promptCall, AgentOp.continueCall, AgentOp.finishActivation,
       AgentOp.continueCall]⟩

end PiMono
